import Mathlib

/-!
Verification development for the timehelm server core
(src/server/src/{game,physics,websocket,main,db,messages}.rs).

Modelling conventions:
* `f32`/`f64` values are modelled as exact rationals (`ℚ`).
* Rust `HashMap<String, V>` is modelled extensionally as `String → Option V`.
* The Rapier physics pipeline (`PhysicsPipeline::step`) is an external
  capability: it is a parameter `PipelineFn` of the step functions, and the
  engine's documented behaviour on kinematic bodies ("transform externally
  dictated, not simulated") and on the body set (the step never inserts or
  removes bodies) is the predicate `PipelineOK`.
* `rand::thread_rng` draws are parameters (`BallRng`, or explicit rational
  arguments for the draws taken at body creation).
-/

namespace Timehelm

/-- Daily routine activities (game.rs, enum Activity). -/
inductive Activity where
  | Idle
  | Sleeping
  | Eating
  | Cooking
  | Working
  | Exercising
  | Socializing
  | Shopping
  | Cleaning
  | Bathing
  | Reading
  | WatchingTv
  | Gaming
  | Commuting
deriving DecidableEq, Repr

/-- 3D position in centimeters, Y vertical (game.rs, struct Position). -/
structure Position where
  x : ℚ
  y : ℚ
  z : ℚ
deriving DecidableEq, Repr

/-- Euler-angle rotation in radians (game.rs, struct Rotation). -/
structure Rotation where
  x : ℚ
  y : ℚ
  z : ℚ
deriving DecidableEq, Repr

/-- A player (game.rs, struct Player). -/
structure Player where
  id : String
  username : String
  position : Position
  rotation : ℚ
  is_moving : Bool
  activity : Activity
deriving DecidableEq, Repr

/-- Entity kind (game.rs, enum EntityType). -/
inductive EntityType where
  | Human
  | Ball
deriving DecidableEq, Repr

/-- String form of an entity type (game.rs, EntityType::as_str). -/
def EntityType.as_str : EntityType → String
  | .Human => "human"
  | .Ball => "ball"

/-- A game entity (game.rs, struct Entity). -/
structure Entity where
  id : String
  entity_type : EntityType
  position : Position
  rotation : Rotation
deriving DecidableEq, Repr

/-- A 3-vector of rationals (rapier `Vector<Real>`). -/
structure Vec3 where
  x : ℚ
  y : ℚ
  z : ℚ
deriving DecidableEq, Repr

/-- Rigid-body kind (rapier `RigidBodyBuilder::dynamic` vs
`RigidBodyBuilder::kinematic_position_based`). -/
inductive BodyKind where
  | dynamic
  | kinematicPositionBased
deriving DecidableEq, Repr

/-- The observable state of one rigid body: its kind, translation, orientation
(as the Euler angles returned by `rotation().euler_angles()`), and linear
velocity. -/
structure RigidBody where
  kind : BodyKind
  translation : Vec3
  rotationEuler : Vec3
  linvel : Vec3
deriving DecidableEq, Repr

/-- Extensional model of `HashMap<String, V>`. -/
def StrMap (α : Type) : Type := String → Option α

/-- `HashMap::insert` (also used when an existing key is overwritten). -/
def mapInsert {α : Type} (m : StrMap α) (k : String) (v : α) : StrMap α :=
  fun j => if j = k then some v else m j

/-- `HashMap::remove`. -/
def mapErase {α : Type} (m : StrMap α) (k : String) : StrMap α :=
  fun j => if j = k then none else m j

/-- The empty map (`HashMap::new`). -/
def mapEmpty {α : Type} : StrMap α := fun _ => none

/-- Model of Rust `str::starts_with` (byte-prefix test on UTF-8 strings,
equivalently a character-list prefix test). -/
def hasPre (p s : String) : Bool := p.data.isPrefixOf s.data

/-- The physics world (physics.rs, struct PhysicsWorld).  The handle map
`entity_handles` composed with `rigid_body_set` is modelled as the single map
`bodies`; the static ground/wall colliders and the solver state live inside the
external pipeline and are not observable through any of the queries the game
code performs. -/
structure PhysicsWorld where
  gravity : Vec3
  /-- the fixed `IntegrationParameters::default()` simulation delta -/
  integration_dt : ℚ
  bodies : StrMap RigidBody

/-- The external integration pipeline (`PhysicsPipeline::step`): given gravity,
the fixed integration delta, and the body set, produce the new body set. -/
def PipelineFn : Type := Vec3 → ℚ → StrMap RigidBody → StrMap RigidBody

/-- Documented contract of the external engine's step: it never inserts or
removes bodies, and it leaves position-based kinematic bodies exactly as they
were (their transform is externally dictated, not simulated). -/
def PipelineOK (f : PipelineFn) : Prop :=
  (∀ g d bs id, (f g d bs) id = none ↔ bs id = none) ∧
  (∀ g d bs id b, bs id = some b → b.kind = BodyKind.kinematicPositionBased →
      (f g d bs) id = some b)

/-- The trivial pipeline (used to instantiate `PipelineOK` on examples). -/
def idPipeline : PipelineFn := fun _ _ bs => bs

/-- Per-ball random draws of `rng.gen_range(-20.0..20.0)` taken in
`PhysicsWorld::step`. -/
def BallRng : Type := String → ℚ × ℚ

/-- A fixed rng used in concrete runs. -/
def zeroRng : BallRng := fun _ => (0, 0)

/-- PhysicsWorld::new (physics.rs): empty body map, gravity scaled for the 60x
time scale, default integration parameters (fixed dt 1/60).  The ground plane
and the four boundary walls are static colliders without rigid bodies, hence
absent from `bodies`. -/
def PhysicsWorld.new : PhysicsWorld :=
  { gravity := ⟨0, -981 * 3600, 0⟩
    integration_dt := 1 / 60
    bodies := mapEmpty }

/-- PhysicsWorld::create_bouncy_ball (physics.rs).  `rvx`, `rvz` are the two
`rng.gen_range(-100.0..100.0)` draws.  The body is dynamic, translated to
`(x, 500, z)` — the `y` argument of the caller is NOT forwarded, the height is
the fixed literal `500.0` — with initial velocity `(rvx*60, 0, rvz*60)`. -/
def PhysicsWorld.create_bouncy_ball (w : PhysicsWorld) (rvx rvz : ℚ)
    (entity_id : String) (x z : ℚ) : PhysicsWorld :=
  let body : RigidBody :=
    { kind := BodyKind.dynamic
      translation := ⟨x, 500, z⟩
      rotationEuler := ⟨0, 0, 0⟩
      linvel := ⟨rvx * 60, 0, rvz * 60⟩ }
  { w with bodies := mapInsert w.bodies entity_id body }

/-- PhysicsWorld::create_human (physics.rs): a position-based kinematic body at
`(x, y, z)` with identity orientation. -/
def PhysicsWorld.create_human (w : PhysicsWorld) (entity_id : String)
    (x y z : ℚ) : PhysicsWorld :=
  let body : RigidBody :=
    { kind := BodyKind.kinematicPositionBased
      translation := ⟨x, y, z⟩
      rotationEuler := ⟨0, 0, 0⟩
      linvel := ⟨0, 0, 0⟩ }
  { w with bodies := mapInsert w.bodies entity_id body }

/-- PhysicsWorld::update_human_position (physics.rs): if the body exists, set
its translation (only the translation: the rotation is left untouched). -/
def PhysicsWorld.update_human_position (w : PhysicsWorld) (entity_id : String)
    (x y z : ℚ) : PhysicsWorld :=
  match w.bodies entity_id with
  | none => w
  | some b =>
      { w with bodies := mapInsert w.bodies entity_id ({ b with translation := ⟨x, y, z⟩ }) }

/-- The pre-integration pass of PhysicsWorld::step (physics.rs): for a body
whose id starts with `"ball_"` and whose vertical velocity satisfies
`linvel.y < 6.0 && linvel.y > -6.0`, add `rng.gen_range(-20.0..20.0) * 60.0`
to each horizontal velocity component; otherwise leave the body unchanged. -/
def perturbBall (rng : BallRng) (id : String) (b : RigidBody) : RigidBody :=
  if hasPre "ball_" id = true ∧ b.linvel.y < 6 ∧ b.linvel.y > -6 then
    { b with linvel :=
        ⟨b.linvel.x + (rng id).1 * 60, b.linvel.y, b.linvel.z + (rng id).2 * 60⟩ }
  else b

/-- PhysicsWorld::step (physics.rs).  The `dt` argument is received but never
read (`_dt` in the source); the pipeline is invoked with the world's gravity
and the fixed `integration_parameters` delta, on the perturbed body set. -/
def PhysicsWorld.step (w : PhysicsWorld) (f : PipelineFn) (rng : BallRng)
    (_dt : ℚ) : PhysicsWorld :=
  let perturbed : StrMap RigidBody := fun id => (w.bodies id).map (perturbBall rng id)
  { w with bodies := f w.gravity w.integration_dt perturbed }

/-- PhysicsWorld::get_entity_position (physics.rs). -/
def PhysicsWorld.get_entity_position (w : PhysicsWorld) (entity_id : String) :
    Option (ℚ × ℚ × ℚ) :=
  (w.bodies entity_id).map fun b => (b.translation.x, b.translation.y, b.translation.z)

/-- PhysicsWorld::get_entity_rotation (physics.rs): the body's orientation as
Euler angles. -/
def PhysicsWorld.get_entity_rotation (w : PhysicsWorld) (entity_id : String) :
    Option (ℚ × ℚ × ℚ) :=
  (w.bodies entity_id).map fun b => (b.rotationEuler.x, b.rotationEuler.y, b.rotationEuler.z)

/-- PhysicsWorld::remove_entity (physics.rs). -/
def PhysicsWorld.remove_entity (w : PhysicsWorld) (entity_id : String) :
    PhysicsWorld :=
  { w with bodies := mapErase w.bodies entity_id }

/-- The game state (game.rs, struct GameState). -/
structure GameState where
  players : StrMap Player
  entities : StrMap Entity
  physics : PhysicsWorld

/-- GameState::player_to_entity (game.rs): the mirrored Human entity with id
`"human_" + player.id`, the player's position, and yaw-only Euler rotation. -/
def player_to_entity (p : Player) : Entity :=
  { id := "human_" ++ p.id
    entity_type := EntityType.Human
    position := p.position
    rotation := ⟨0, p.rotation, 0⟩ }

/-- GameState::add_entity (game.rs): create the matching physics body
(kinematic for Human, dynamic ball for Ball — for a Ball only `x` and `z` of
the entity's position are forwarded), then insert the entity.  `rvx`, `rvz`
are the velocity draws used in the Ball branch (unused for Human). -/
def GameState.add_entity (s : GameState) (rvx rvz : ℚ) (e : Entity) : GameState :=
  match e.entity_type with
  | EntityType.Human =>
      { s with
        physics := s.physics.create_human e.id e.position.x e.position.y e.position.z
        entities := mapInsert s.entities e.id e }
  | EntityType.Ball =>
      { s with
        physics := s.physics.create_bouncy_ball rvx rvz e.id e.position.x e.position.z
        entities := mapInsert s.entities e.id e }

/-- GameState::new (game.rs): fresh physics world plus one seeded bouncy ball
with id `"ball_" ++ u` (`u` the random uuid), physics body at `(-300, 500,
-400)` (the 500 fixed inside create_bouncy_ball) and stored entity position
`(-300, 500, -400)`. `rvx`, `rvz` are the ball's initial-velocity draws. -/
def GameState.new (u : String) (rvx rvz : ℚ) : GameState :=
  let ballId := "ball_" ++ u
  let ball : Entity :=
    { id := ballId
      entity_type := EntityType.Ball
      position := ⟨-300, 500, -400⟩
      rotation := ⟨0, 0, 0⟩ }
  { players := mapEmpty
    entities := mapInsert mapEmpty ballId ball
    physics := PhysicsWorld.new.create_bouncy_ball rvx rvz ballId (-300) (-400) }

/-- GameState::add_player (game.rs): insert the mirrored Human entity (and its
kinematic body) via add_entity, then insert the player.  The Human branch of
add_entity takes no random draws; zeros are passed as the unused arguments. -/
def GameState.add_player (s : GameState) (p : Player) : GameState :=
  let s1 := s.add_entity 0 0 (player_to_entity p)
  { s1 with players := mapInsert s1.players p.id p }

/-- GameState::remove_player (game.rs): remove the entity `"human_" + id`, its
physics body, and the player; each removal is a no-op on an absent key. -/
def GameState.remove_player (s : GameState) (player_id : String) : GameState :=
  { s with
    entities := mapErase s.entities ("human_" ++ player_id)
    physics := s.physics.remove_entity ("human_" ++ player_id)
    players := mapErase s.players player_id }

/-- GameState::update_player_position (game.rs): if the player is absent, do
nothing; otherwise update the player's position/rotation/is_moving, and if the
mirrored entity exists update its position, set its rotation to yaw-only, and
push the position into the kinematic physics body. -/
def GameState.update_player_position (s : GameState) (player_id : String)
    (position : Position) (rotation : ℚ) (is_moving : Bool) : GameState :=
  match s.players player_id with
  | none => s
  | some pl =>
      let pl' := { pl with position := position, rotation := rotation,
                           is_moving := is_moving }
      let players' := mapInsert s.players player_id pl'
      let entity_id := "human_" ++ player_id
      match s.entities entity_id with
      | none => { s with players := players' }
      | some e =>
          let e' := { e with position := position, rotation := ⟨0, rotation, 0⟩ }
          { s with
            players := players'
            entities := mapInsert s.entities entity_id e'
            physics := s.physics.update_human_position entity_id
              position.x position.y position.z }

/-- GameState::update_player_activity (game.rs): no-op if the player is
absent; otherwise update the activity field only. -/
def GameState.update_player_activity (s : GameState) (player_id : String)
    (activity : Activity) : GameState :=
  match s.players player_id with
  | none => s
  | some pl =>
      { s with players := mapInsert s.players player_id ({ pl with activity := activity }) }

/-- The per-entity body of the sync loop in GameState::step_physics (game.rs):
overwrite the entity's position from `get_entity_position` and its rotation
from `get_entity_rotation`, each only when the query returns a value. -/
def syncEntity (w : PhysicsWorld) (e : Entity) : Entity :=
  let e1 :=
    match w.get_entity_position e.id with
    | some (x, y, z) => { e with position := ⟨x, y, z⟩ }
    | none => e
  match w.get_entity_rotation e.id with
  | some (rx, ry, rz) => { e1 with rotation := ⟨rx, ry, rz⟩ }
  | none => e1

/-- GameState::step_physics (game.rs): step the physics world, then overwrite
every entity's position and rotation from the stepped world. -/
def GameState.step_physics (s : GameState) (f : PipelineFn) (rng : BallRng)
    (dt : ℚ) : GameState :=
  let physics' := s.physics.step f rng dt
  { s with
    physics := physics'
    entities := fun k => (s.entities k).map (syncEntity physics') }

/-- Wire messages (messages.rs, enum GameMessage). -/
inductive GameMessage where
  | Join (player : Player)
  | Leave (player_id : String)
  | Move (player_id : String) (position : Position) (rotation : ℚ) (is_moving : Bool)
  | SetActivity (player_id : String) (activity : Activity)
  | ActivityChanged (player_id : String) (activity : Activity)
  | WorldState (players : List Player) (entities : List Entity)
  | TimeSync (game_time_minutes : Int)
deriving DecidableEq, Repr

/-- Whether a message is a Join. -/
def GameMessage.isJoin : GameMessage → Bool
  | .Join _ => true
  | _ => false

/-- True when the list of inbound messages contains no Join. -/
def noJoinList (msgs : List GameMessage) : Bool :=
  msgs.all fun m => !m.isJoin

/-- One iteration of the inbound loop of handle_websocket (websocket.rs),
restricted to its effect on the game state and on the tracked `player_id`:
Join records the player id and adds the player; Move and SetActivity apply the
matching store update; every other inbound message (including a malformed one,
which is only logged) leaves both unchanged. -/
def inboundStep : GameState × Option String → GameMessage → GameState × Option String
  | (s, _), GameMessage.Join p => (s.add_player p, some p.id)
  | (s, pid), GameMessage.Move q pos rot mov => (s.update_player_position q pos rot mov, pid)
  | (s, pid), GameMessage.SetActivity q a => (s.update_player_activity q a, pid)
  | st, _ => st

/-- The inbound loop of handle_websocket over a finite trace of parsed
messages, starting with no known player id. -/
def runInbound (s : GameState) (msgs : List GameMessage) : GameState × Option String :=
  msgs.foldl inboundStep (s, none)

/-- The disconnect cleanup of handle_websocket (websocket.rs, end of rx_task):
`remove_player` only when a player id was recorded by a Join. -/
def sessionCleanup : GameState × Option String → GameState
  | (s, none) => s
  | (s, some pid) => s.remove_player pid

/-- A whole session's effect on the game state: inbound messages until the
transport closes, then cleanup. -/
def sessionRun (s : GameState) (msgs : List GameMessage) : GameState :=
  sessionCleanup (runInbound s msgs)

/-- One broadcast tick (main.rs, broadcast task body) after the snapshot phase:
serialize the WorldState message once; if serialization succeeds, the broadcast
channel delivers that single string to every subscribed session; if it fails
nothing is sent.  `serialize` stands for `serde_json::to_string`. -/
def broadcastTick (serialize : GameMessage → Option String)
    (players : List Player) (entities : List Entity)
    (sessions : List String) : List (String × String) :=
  match serialize (GameMessage.WorldState players entities) with
  | none => []
  | some payload => sessions.map fun sid => (sid, payload)

/-- Database row data (db.rs, struct EntityData): positions and rotations are
`i32` columns. -/
structure EntityData where
  id : String
  entity_type_name : String
  position_x : Int
  position_y : Int
  position_z : Int
  rotation_x : Int
  rotation_y : Int
  rotation_z : Int
deriving DecidableEq, Repr

/-- Rust `f32 as i32`: truncation toward zero, saturating at the i32 bounds
(an exact-rational model of the float value). -/
def ratAsI32 (q : ℚ) : Int :=
  let t : Int := if 0 ≤ q then ⌊q⌋ else ⌈q⌉
  max (-(2 ^ 31)) (min (2 ^ 31 - 1) t)

/-- The EntityData built for one entity inside save_all_entities (db.rs):
every position and rotation component goes through `as i32`. -/
def entityToData (e : Entity) : EntityData :=
  { id := e.id
    entity_type_name := e.entity_type.as_str
    position_x := ratAsI32 e.position.x
    position_y := ratAsI32 e.position.y
    position_z := ratAsI32 e.position.z
    rotation_x := ratAsI32 e.rotation.x
    rotation_y := ratAsI32 e.rotation.y
    rotation_z := ratAsI32 e.rotation.z }

/-- save_all_entities (db.rs): the sequence of rows upserted into durable
storage, in entity order. -/
def save_all_entities (entities : List Entity) : List EntityData :=
  entities.map entityToData

/-- Abstract events of one task's interaction with the World Store lock, the
session queues and the transports (for the lock-discipline analysis of
websocket.rs and main.rs). -/
inductive SessEvent where
  | writeLockAcquire
  | writeLockRelease
  | readLockAcquire
  | readLockRelease
  /-- an in-memory GameState operation under the lock -/
  | storeOp
  /-- pure in-task computation (serialization, logging) -/
  | pureOp
  /-- `tx.send(...).await` on the session's bounded mpsc queue -/
  | queueSendAwait
  /-- awaiting a websocket transport send/receive -/
  | transportAwait
  /-- awaiting durable-storage I/O -/
  | dbAwait
deriving DecidableEq, Repr

/-- The Join arm of the inbound loop (websocket.rs lines 98-117): the write
guard is taken with `state.game.write().await` and is dropped at the end of
the match arm, AFTER `tx.send(world_json).await`; in between come add_player,
get_all_players, get_all_entities and the serialization. -/
def joinArmTrace : List SessEvent :=
  [SessEvent.writeLockAcquire, SessEvent.storeOp, SessEvent.storeOp,
   SessEvent.storeOp, SessEvent.pureOp, SessEvent.queueSendAwait,
   SessEvent.writeLockRelease]

/-- The Move arm (websocket.rs lines 120-144): write lock, update, local
serialization of an unused string, guard dropped; no await under the lock. -/
def moveArmTrace : List SessEvent :=
  [SessEvent.writeLockAcquire, SessEvent.storeOp, SessEvent.pureOp,
   SessEvent.writeLockRelease]

/-- The SetActivity arm (websocket.rs lines 146-162). -/
def setActivityArmTrace : List SessEvent :=
  [SessEvent.writeLockAcquire, SessEvent.storeOp, SessEvent.pureOp,
   SessEvent.writeLockRelease]

/-- The disconnect cleanup (websocket.rs lines 181-186). -/
def cleanupTrace : List SessEvent :=
  [SessEvent.writeLockAcquire, SessEvent.storeOp, SessEvent.writeLockRelease]

/-- One physics tick (main.rs lines 121-130). -/
def physicsTickTrace : List SessEvent :=
  [SessEvent.writeLockAcquire, SessEvent.storeOp, SessEvent.writeLockRelease]

/-- One broadcast tick (main.rs lines 137-156): read lock, two snapshots,
explicit `drop(game)`, then serialization and the non-suspending
`broadcast::Sender::send`. -/
def broadcastTickTrace : List SessEvent :=
  [SessEvent.readLockAcquire, SessEvent.storeOp, SessEvent.storeOp,
   SessEvent.readLockRelease, SessEvent.pureOp, SessEvent.pureOp]

/-- One persistence tick (main.rs lines 101-116): read lock, snapshot,
explicit `drop(game)`, then the awaited database write. -/
def persistenceTickTrace : List SessEvent :=
  [SessEvent.readLockAcquire, SessEvent.storeOp, SessEvent.readLockRelease,
   SessEvent.dbAwait]

/-- Is this event an await on queue, transport, or storage I/O? -/
def SessEvent.isIoAwait : SessEvent → Bool
  | .queueSendAwait => true
  | .transportAwait => true
  | .dbAwait => true
  | _ => false

/-- Lock-depth change caused by one event. -/
def SessEvent.lockDelta : SessEvent → Int
  | .writeLockAcquire => 1
  | .writeLockRelease => -1
  | .readLockAcquire => 1
  | .readLockRelease => -1
  | _ => 0

/-- Auxiliary scan: does some I/O await occur while the lock depth is
positive? -/
def awaitsWhileLockedAux : Int → List SessEvent → Bool
  | _, [] => false
  | d, e :: es =>
      (e.isIoAwait && decide (0 < d)) || awaitsWhileLockedAux (d + e.lockDelta) es

/-- Does the task's trace await queue/transport/storage I/O while holding the
World Store lock? -/
def awaitsWhileLocked (tr : List SessEvent) : Bool :=
  awaitsWhileLockedAux 0 tr

/-- The reachability invariant the server maintains (proved below for every
state reachable through the server's GameState operations). -/
structure StateInv (s : GameState) : Prop where
  /-- every present player has its mirrored Human entity and in-sync kinematic
  body -/
  mirror : ∀ P pl, s.players P = some pl →
    ∃ e b, s.entities ("human_" ++ P) = some e ∧
      e.entity_type = EntityType.Human ∧
      e.id = "human_" ++ P ∧
      e.position = pl.position ∧
      s.physics.bodies ("human_" ++ P) = some b ∧
      b.kind = BodyKind.kinematicPositionBased ∧
      b.translation = ⟨pl.position.x, pl.position.y, pl.position.z⟩ ∧
      b.rotationEuler = ⟨0, 0, 0⟩
  /-- an absent player has neither mirrored entity nor physics body -/
  absent : ∀ P, s.players P = none →
    s.entities ("human_" ++ P) = none ∧ s.physics.bodies ("human_" ++ P) = none
  /-- every Human entity is the mirror of a present player -/
  humanOrig : ∀ k e, s.entities k = some e → e.entity_type = EntityType.Human →
    ∃ P, k = "human_" ++ P ∧ (s.players P).isSome = true
  /-- every stored entity's id field equals its key -/
  entId : ∀ k e, s.entities k = some e → e.id = k

/-- The states reachable by the server's sequence of GameState operations:
initialization, add_player, remove_player, update_player_position,
update_player_activity, and step_physics with a pipeline satisfying the
engine's contract. -/
inductive Reachable : GameState → Prop where
  | init (u : String) (rvx rvz : ℚ) : Reachable (GameState.new u rvx rvz)
  | add {s : GameState} (p : Player) : Reachable s → Reachable (s.add_player p)
  | remove {s : GameState} (pid : String) : Reachable s →
      Reachable (s.remove_player pid)
  | updPos {s : GameState} (pid : String) (pos : Position) (rot : ℚ)
      (mov : Bool) : Reachable s →
      Reachable (s.update_player_position pid pos rot mov)
  | updAct {s : GameState} (pid : String) (a : Activity) : Reachable s →
      Reachable (s.update_player_activity pid a)
  | step {s : GameState} (f : PipelineFn) (rng : BallRng) (dt : ℚ) :
      PipelineOK f → Reachable s → Reachable (s.step_physics f rng dt)

/-- A concrete player used in the example runs. -/
def examplePlayer : Player :=
  { id := "p1"
    username := "alice"
    position := ⟨0, 0, 0⟩
    rotation := 0
    is_moving := false
    activity := Activity.Idle }

/-- The example player after the Move of the example run. -/
def examplePlayerMoved : Player :=
  { id := "p1"
    username := "alice"
    position := ⟨100, 0, 200⟩
    rotation := 1
    is_moving := true
    activity := Activity.Idle }

/-- Initial state of the example runs. -/
def exampleState0 : GameState := GameState.new "u0" 0 0

/-- Example run: one player joined. -/
def exampleState1 : GameState := exampleState0.add_player examplePlayer

/-- Example run: the player moved to (100, 0, 200) with yaw 1. -/
def exampleState2 : GameState :=
  exampleState1.update_player_position "p1" ⟨100, 0, 200⟩ 1 true

/-- Example run: one physics tick after the move, with the trivial pipeline
and zero random draws. -/
def exampleState3 : GameState :=
  exampleState2.step_physics idPipeline zeroRng (1 / 60)

/-- Does every Move/SetActivity in the trace reference a player id absent from
`s`?  (Executable form, for concrete evaluation.) -/
def refersOnlyAbsent (s : GameState) (msgs : List GameMessage) : Bool :=
  msgs.all fun m =>
    match m with
    | GameMessage.Move q _ _ _ => decide (s.players q = none)
    | GameMessage.SetActivity q _ => decide (s.players q = none)
    | _ => true

/-- A concrete rng whose draws sit on the bound of gen_range(-20.0..20.0). -/
def exampleRng : BallRng := fun _ => (20, -20)

/-- The dynamic body create_bouncy_ball builds at (0, 0) with zero draws. -/
def exampleBallBody : RigidBody :=
  { kind := BodyKind.dynamic
    translation := ⟨0, 500, 0⟩
    rotationEuler := ⟨0, 0, 0⟩
    linvel := ⟨0, 0, 0⟩ }

/-- A physics world holding one ball body at its bounce trough. -/
def exampleBallWorld : PhysicsWorld :=
  PhysicsWorld.new.create_bouncy_ball 0 0 "ball_b" 0 0

/-- A Ball entity whose stored height differs from the fixed physics height. -/
def exampleBallEntity : Entity :=
  { id := "ball_w"
    entity_type := EntityType.Ball
    position := ⟨1, 123, 3⟩
    rotation := ⟨0, 0, 0⟩ }

/-- An entity with fractional coordinates for the persistence example. -/
def exampleEntityDb : Entity :=
  { id := "e1"
    entity_type := EntityType.Ball
    position := ⟨1 / 2, -3 / 2, 7⟩
    rotation := ⟨0, 157 / 100, 0⟩ }

/-- A pre-Join inbound trace referencing an absent player id. -/
def exampleGhostMsgs : List GameMessage :=
  [GameMessage.Move "ghost" ⟨1, 1, 1⟩ 0 false]

/-- The kinematic body built by create_human. -/
def kinBodyAt (x y z : ℚ) : RigidBody :=
  { kind := BodyKind.kinematicPositionBased
    translation := ⟨x, y, z⟩
    rotationEuler := ⟨0, 0, 0⟩
    linvel := ⟨0, 0, 0⟩ }

/-! ### Helper lemmas -/

/-- String append is left-cancellative. -/
theorem strAppend_left_cancel {p a b : String} (h : p ++ a = p ++ b) : a = b := by
  apply String.ext
  have h2 := congrArg String.data h
  rw [String.data_append, String.data_append] at h2
  exact List.append_cancel_left h2

/-- Mirrored-entity keys are injective in the player id. -/
theorem humanKey_inj {a b : String} (h : "human_" ++ a = "human_" ++ b) : a = b :=
  strAppend_left_cancel h

/-- A ball key is never a mirrored-entity key. -/
theorem ball_ne_human (u q : String) : "ball_" ++ u ≠ "human_" ++ q := by
  intro h
  have h2 := congrArg String.data h
  rw [String.data_append, String.data_append] at h2
  simp at h2

theorem mapInsert_self {α : Type} (m : StrMap α) (k : String) (v : α) :
    mapInsert m k v k = some v := by
  simp [mapInsert]

theorem mapInsert_ne {α : Type} (m : StrMap α) {j k : String} (v : α) (h : j ≠ k) :
    mapInsert m k v j = m j := by
  simp [mapInsert, h]

theorem mapErase_self {α : Type} (m : StrMap α) (k : String) :
    mapErase m k k = none := by
  simp [mapErase]

theorem mapErase_ne {α : Type} (m : StrMap α) {j k : String} (h : j ≠ k) :
    mapErase m k j = m j := by
  simp [mapErase, h]

theorem mapEmpty_eq {α : Type} (k : String) : (mapEmpty : StrMap α) k = none := rfl

/-- The velocity perturbation leaves the body's kind unchanged. -/
theorem perturbBall_kind (rng : BallRng) (id : String) (b : RigidBody) :
    (perturbBall rng id b).kind = b.kind := by
  unfold perturbBall
  split <;> rfl

/-- The velocity perturbation leaves the body's translation unchanged. -/
theorem perturbBall_translation (rng : BallRng) (id : String) (b : RigidBody) :
    (perturbBall rng id b).translation = b.translation := by
  unfold perturbBall
  split <;> rfl

/-- The velocity perturbation leaves the body's orientation unchanged. -/
theorem perturbBall_rotationEuler (rng : BallRng) (id : String) (b : RigidBody) :
    (perturbBall rng id b).rotationEuler = b.rotationEuler := by
  unfold perturbBall
  split <;> rfl

/-- The velocity perturbation leaves the vertical velocity unchanged. -/
theorem perturbBall_linvel_y (rng : BallRng) (id : String) (b : RigidBody) :
    (perturbBall rng id b).linvel.y = b.linvel.y := by
  unfold perturbBall
  split <;> rfl

/-- The trivial pipeline satisfies the engine contract. -/
theorem idPipeline_ok : PipelineOK idPipeline :=
  ⟨fun _ _ _ _ => Iff.rfl, fun _ _ _ _ _ h _ => h⟩

/-- Unfolding of add_player on the players map. -/
theorem add_player_players (s : GameState) (p : Player) :
    (s.add_player p).players = mapInsert s.players p.id p := rfl

/-- Unfolding of add_player on the entities map (the mirrored entity always
takes the Human branch of add_entity). -/
theorem add_player_entities (s : GameState) (p : Player) :
    (s.add_player p).entities =
      mapInsert s.entities ("human_" ++ p.id) (player_to_entity p) := rfl

/-- Unfolding of add_player on the physics bodies. -/
theorem add_player_bodies (s : GameState) (p : Player) :
    (s.add_player p).physics.bodies =
      mapInsert s.physics.bodies ("human_" ++ p.id)
        (kinBodyAt p.position.x p.position.y p.position.z) := rfl

/-- When the physics world holds a body for the entity's id, the sync step
overwrites position and rotation from that body. -/
theorem syncEntity_eq_of_body (w : PhysicsWorld) (e : Entity) (b : RigidBody)
    (h : w.bodies e.id = some b) :
    syncEntity w e =
      { e with
        position := ⟨b.translation.x, b.translation.y, b.translation.z⟩
        rotation := ⟨b.rotationEuler.x, b.rotationEuler.y, b.rotationEuler.z⟩ } := by
  simp [syncEntity, PhysicsWorld.get_entity_position, PhysicsWorld.get_entity_rotation, h]

/-- When the physics world has no body for the entity's id, the sync step
leaves the entity unchanged. -/
theorem syncEntity_eq_of_none (w : PhysicsWorld) (e : Entity)
    (h : w.bodies e.id = none) : syncEntity w e = e := by
  simp [syncEntity, PhysicsWorld.get_entity_position, PhysicsWorld.get_entity_rotation, h]

/-- The sync step never changes an entity's id. -/
theorem syncEntity_id (w : PhysicsWorld) (e : Entity) :
    (syncEntity w e).id = e.id := by
  cases h : w.bodies e.id with
  | none => rw [syncEntity_eq_of_none w e h]
  | some b => rw [syncEntity_eq_of_body w e b h]

/-- The sync step never changes an entity's kind. -/
theorem syncEntity_entity_type (w : PhysicsWorld) (e : Entity) :
    (syncEntity w e).entity_type = e.entity_type := by
  cases h : w.bodies e.id with
  | none => rw [syncEntity_eq_of_none w e h]
  | some b => rw [syncEntity_eq_of_body w e b h]

/-- The initial state satisfies the invariant. -/
theorem stateInv_new (u : String) (rvx rvz : ℚ) : StateInv (GameState.new u rvx rvz) := by
  constructor
  · intro P pl h
    simp [GameState.new, mapEmpty] at h
  · intro P _
    have hne : ("human_" ++ P) ≠ ("ball_" ++ u) := fun h => ball_ne_human u P h.symm
    constructor
    · simp [GameState.new, mapInsert, mapEmpty, hne]
    · simp [GameState.new, PhysicsWorld.new, PhysicsWorld.create_bouncy_ball,
        mapInsert, mapEmpty, hne]
  · intro k e hk htype
    simp [GameState.new, mapInsert, mapEmpty] at hk
    rcases hk with ⟨hk1, hk2⟩
    rw [← hk2] at htype
    cases htype
  · intro k e hk
    simp [GameState.new, mapInsert, mapEmpty] at hk
    rcases hk with ⟨hk1, hk2⟩
    rw [← hk2, hk1]

/-- add_player preserves the invariant. -/
theorem stateInv_add_player {s : GameState} (hs : StateInv s) (p : Player) :
    StateInv (s.add_player p) := by
  constructor
  · intro P pl h
    rw [add_player_players] at h
    rw [add_player_entities, add_player_bodies]
    by_cases hP : P = p.id
    · subst hP
      rw [mapInsert_self] at h
      cases h
      exact ⟨player_to_entity p, kinBodyAt p.position.x p.position.y p.position.z,
        mapInsert_self _ _ _, rfl, rfl, rfl, mapInsert_self _ _ _, rfl, rfl, rfl⟩
    · rw [mapInsert_ne _ _ hP] at h
      obtain ⟨e, b, he, htype, hid, hpos, hb, hkind, htr, hrot⟩ := hs.mirror P pl h
      have hkey : ("human_" ++ P) ≠ ("human_" ++ p.id) := fun hk => hP (humanKey_inj hk)
      exact ⟨e, b, by rw [mapInsert_ne _ _ hkey]; exact he, htype, hid, hpos,
        by rw [mapInsert_ne _ _ hkey]; exact hb, hkind, htr, hrot⟩
  · intro P h
    rw [add_player_players] at h
    rw [add_player_entities, add_player_bodies]
    by_cases hP : P = p.id
    · subst hP
      rw [mapInsert_self] at h
      cases h
    · rw [mapInsert_ne _ _ hP] at h
      obtain ⟨he, hb⟩ := hs.absent P h
      have hkey : ("human_" ++ P) ≠ ("human_" ++ p.id) := fun hk => hP (humanKey_inj hk)
      exact ⟨by rw [mapInsert_ne _ _ hkey]; exact he,
        by rw [mapInsert_ne _ _ hkey]; exact hb⟩
  · intro k e hk htype
    rw [add_player_entities] at hk
    by_cases hkey : k = "human_" ++ p.id
    · subst hkey
      refine ⟨p.id, rfl, ?_⟩
      rw [add_player_players, mapInsert_self]
      rfl
    · rw [mapInsert_ne _ _ hkey] at hk
      obtain ⟨P, hkP, hPres⟩ := hs.humanOrig k e hk htype
      refine ⟨P, hkP, ?_⟩
      rw [add_player_players]
      by_cases hP : P = p.id
      · subst hP
        rw [mapInsert_self]
        rfl
      · rw [mapInsert_ne _ _ hP]
        exact hPres
  · intro k e hk
    rw [add_player_entities] at hk
    by_cases hkey : k = "human_" ++ p.id
    · subst hkey
      rw [mapInsert_self] at hk
      cases hk
      rfl
    · rw [mapInsert_ne _ _ hkey] at hk
      exact hs.entId k e hk

/-- remove_player preserves the invariant. -/
theorem stateInv_remove_player {s : GameState} (hs : StateInv s) (pid : String) :
    StateInv (s.remove_player pid) := by
  constructor
  · intro P pl h
    replace h : mapErase s.players pid P = some pl := h
    by_cases hP : P = pid
    · subst hP
      rw [mapErase_self] at h
      cases h
    · rw [mapErase_ne _ hP] at h
      obtain ⟨e, b, he, htype, hid, hpos, hb, hkind, htr, hrot⟩ := hs.mirror P pl h
      have hkey : ("human_" ++ P) ≠ ("human_" ++ pid) := fun hk => hP (humanKey_inj hk)
      exact ⟨e, b, by rw [show (s.remove_player pid).entities =
          mapErase s.entities ("human_" ++ pid) from rfl, mapErase_ne _ hkey]; exact he,
        htype, hid, hpos,
        by rw [show (s.remove_player pid).physics.bodies =
          mapErase s.physics.bodies ("human_" ++ pid) from rfl, mapErase_ne _ hkey]; exact hb,
        hkind, htr, hrot⟩
  · intro P h
    replace h : mapErase s.players pid P = none := h
    by_cases hP : P = pid
    · subst hP
      exact ⟨mapErase_self _ _, mapErase_self _ _⟩
    · rw [mapErase_ne _ hP] at h
      obtain ⟨he, hb⟩ := hs.absent P h
      have hkey : ("human_" ++ P) ≠ ("human_" ++ pid) := fun hk => hP (humanKey_inj hk)
      exact ⟨by rw [show (s.remove_player pid).entities =
          mapErase s.entities ("human_" ++ pid) from rfl, mapErase_ne _ hkey]; exact he,
        by rw [show (s.remove_player pid).physics.bodies =
          mapErase s.physics.bodies ("human_" ++ pid) from rfl, mapErase_ne _ hkey]; exact hb⟩
  · intro k e hk htype
    replace hk : mapErase s.entities ("human_" ++ pid) k = some e := hk
    by_cases hkey : k = "human_" ++ pid
    · subst hkey
      rw [mapErase_self] at hk
      cases hk
    · rw [mapErase_ne _ hkey] at hk
      obtain ⟨P, hkP, hPres⟩ := hs.humanOrig k e hk htype
      have hP : P ≠ pid := fun hP => hkey (by rw [hkP, hP])
      refine ⟨P, hkP, ?_⟩
      show (mapErase s.players pid P).isSome = true
      rw [mapErase_ne _ hP]
      exact hPres
  · intro k e hk
    replace hk : mapErase s.entities ("human_" ++ pid) k = some e := hk
    by_cases hkey : k = "human_" ++ pid
    · subst hkey
      rw [mapErase_self] at hk
      cases hk
    · rw [mapErase_ne _ hkey] at hk
      exact hs.entId k e hk

/-- update_player_position preserves the invariant. -/
theorem stateInv_update_player_position {s : GameState} (hs : StateInv s)
    (pid : String) (pos : Position) (rot : ℚ) (mov : Bool) :
    StateInv (s.update_player_position pid pos rot mov) := by
  cases hpl : s.players pid with
  | none =>
      have hunch : s.update_player_position pid pos rot mov = s := by
        simp [GameState.update_player_position, hpl]
      rw [hunch]
      exact hs
  | some pl =>
      obtain ⟨e, b, he, htype, hid, hpos, hb, hkind, htr, hrot⟩ := hs.mirror pid pl hpl
      have hplayers : (s.update_player_position pid pos rot mov).players =
          mapInsert s.players pid
            ({ pl with position := pos, rotation := rot, is_moving := mov }) := by
        simp [GameState.update_player_position, hpl, he]
      have hentities : (s.update_player_position pid pos rot mov).entities =
          mapInsert s.entities ("human_" ++ pid)
            ({ e with position := pos, rotation := ⟨0, rot, 0⟩ }) := by
        simp [GameState.update_player_position, hpl, he]
      have hbodies : (s.update_player_position pid pos rot mov).physics.bodies =
          mapInsert s.physics.bodies ("human_" ++ pid)
            ({ b with translation := ⟨pos.x, pos.y, pos.z⟩ }) := by
        simp [GameState.update_player_position, hpl, he,
          PhysicsWorld.update_human_position, hb]
      constructor
      · intro P pl2 h
        rw [hplayers] at h
        rw [hentities, hbodies]
        by_cases hP : P = pid
        · subst hP
          rw [mapInsert_self] at h
          cases h
          exact ⟨{ e with position := pos, rotation := ⟨0, rot, 0⟩ },
            { b with translation := ⟨pos.x, pos.y, pos.z⟩ },
            mapInsert_self _ _ _, htype, hid, rfl, mapInsert_self _ _ _, hkind, rfl, hrot⟩
        · rw [mapInsert_ne _ _ hP] at h
          obtain ⟨e2, b2, he2, htype2, hid2, hpos2, hb2, hkind2, htr2, hrot2⟩ :=
            hs.mirror P pl2 h
          have hkey : ("human_" ++ P) ≠ ("human_" ++ pid) := fun hk => hP (humanKey_inj hk)
          exact ⟨e2, b2, by rw [mapInsert_ne _ _ hkey]; exact he2, htype2, hid2, hpos2,
            by rw [mapInsert_ne _ _ hkey]; exact hb2, hkind2, htr2, hrot2⟩
      · intro P h
        rw [hplayers] at h
        rw [hentities, hbodies]
        by_cases hP : P = pid
        · subst hP
          rw [mapInsert_self] at h
          cases h
        · rw [mapInsert_ne _ _ hP] at h
          obtain ⟨he2, hb2⟩ := hs.absent P h
          have hkey : ("human_" ++ P) ≠ ("human_" ++ pid) := fun hk => hP (humanKey_inj hk)
          exact ⟨by rw [mapInsert_ne _ _ hkey]; exact he2,
            by rw [mapInsert_ne _ _ hkey]; exact hb2⟩
      · intro k e2 hk htype2
        rw [hentities] at hk
        by_cases hkey : k = "human_" ++ pid
        · subst hkey
          refine ⟨pid, rfl, ?_⟩
          rw [hplayers, mapInsert_self]
          rfl
        · rw [mapInsert_ne _ _ hkey] at hk
          obtain ⟨P, hkP, hPres⟩ := hs.humanOrig k e2 hk htype2
          refine ⟨P, hkP, ?_⟩
          rw [hplayers]
          by_cases hP : P = pid
          · subst hP
            rw [mapInsert_self]
            rfl
          · rw [mapInsert_ne _ _ hP]
            exact hPres
      · intro k e2 hk
        rw [hentities] at hk
        by_cases hkey : k = "human_" ++ pid
        · subst hkey
          rw [mapInsert_self] at hk
          cases hk
          exact hid
        · rw [mapInsert_ne _ _ hkey] at hk
          exact hs.entId k e2 hk

/-- update_player_activity preserves the invariant. -/
theorem stateInv_update_player_activity {s : GameState} (hs : StateInv s)
    (pid : String) (a : Activity) :
    StateInv (s.update_player_activity pid a) := by
  cases hpl : s.players pid with
  | none =>
      have hunch : s.update_player_activity pid a = s := by
        simp [GameState.update_player_activity, hpl]
      rw [hunch]
      exact hs
  | some pl =>
      have hplayers : (s.update_player_activity pid a).players =
          mapInsert s.players pid ({ pl with activity := a }) := by
        simp [GameState.update_player_activity, hpl]
      have hentities : (s.update_player_activity pid a).entities = s.entities := by
        simp [GameState.update_player_activity, hpl]
      have hbodies : (s.update_player_activity pid a).physics.bodies =
          s.physics.bodies := by
        simp [GameState.update_player_activity, hpl]
      constructor
      · intro P pl2 h
        rw [hplayers] at h
        rw [hentities, hbodies]
        by_cases hP : P = pid
        · subst hP
          rw [mapInsert_self] at h
          cases h
          obtain ⟨e, b, he, htype, hid, hpos, hb, hkind, htr, hrot⟩ := hs.mirror _ pl hpl
          exact ⟨e, b, he, htype, hid, hpos, hb, hkind, htr, hrot⟩
        · rw [mapInsert_ne _ _ hP] at h
          exact hs.mirror P pl2 h
      · intro P h
        rw [hplayers] at h
        rw [hentities, hbodies]
        by_cases hP : P = pid
        · subst hP
          rw [mapInsert_self] at h
          cases h
        · rw [mapInsert_ne _ _ hP] at h
          exact hs.absent P h
      · intro k e2 hk htype2
        rw [hentities] at hk
        obtain ⟨P, hkP, hPres⟩ := hs.humanOrig k e2 hk htype2
        refine ⟨P, hkP, ?_⟩
        rw [hplayers]
        by_cases hP : P = pid
        · subst hP
          rw [mapInsert_self]
          rfl
        · rw [mapInsert_ne _ _ hP]
          exact hPres
      · intro k e2 hk
        rw [hentities] at hk
        exact hs.entId k e2 hk

/-- Unfolding of step_physics on the entities map. -/
theorem step_physics_entities (s : GameState) (f : PipelineFn) (rng : BallRng) (dt : ℚ) :
    (s.step_physics f rng dt).entities =
      fun k => (s.entities k).map (syncEntity (s.physics.step f rng dt)) := rfl

/-- Unfolding of step_physics on the players map. -/
theorem step_physics_players (s : GameState) (f : PipelineFn) (rng : BallRng) (dt : ℚ) :
    (s.step_physics f rng dt).players = s.players := rfl

/-- Unfolding of step_physics on the physics world. -/
theorem step_physics_physics (s : GameState) (f : PipelineFn) (rng : BallRng) (dt : ℚ) :
    (s.step_physics f rng dt).physics = s.physics.step f rng dt := rfl

/-- Unfolding of the physics step on the body map. -/
theorem physics_step_bodies (w : PhysicsWorld) (f : PipelineFn) (rng : BallRng) (dt : ℚ) :
    (w.step f rng dt).bodies =
      f w.gravity w.integration_dt (fun id => (w.bodies id).map (perturbBall rng id)) := rfl

/-- Through a contract-satisfying pipeline, a kinematic body survives the whole
physics step unchanged except for its (ignored) velocity perturbation — in
particular translation, orientation and kind are exactly preserved. -/
theorem step_preserves_kinematic {w : PhysicsWorld} {f : PipelineFn}
    (hf : PipelineOK f) (rng : BallRng) (dt : ℚ) {key : String} {b : RigidBody}
    (hb : w.bodies key = some b) (hkind : b.kind = BodyKind.kinematicPositionBased) :
    (w.step f rng dt).bodies key = some (perturbBall rng key b) := by
  rw [physics_step_bodies]
  have hpert : (fun id => (w.bodies id).map (perturbBall rng id)) key =
      some (perturbBall rng key b) := by
    simp [hb]
  exact hf.2 _ _ _ key (perturbBall rng key b) hpert
    (by rw [perturbBall_kind]; exact hkind)

/-- Through a contract-satisfying pipeline, an id without a body before the
step has no body after it. -/
theorem step_preserves_absent {w : PhysicsWorld} {f : PipelineFn}
    (hf : PipelineOK f) (rng : BallRng) (dt : ℚ) {key : String}
    (hb : w.bodies key = none) : (w.step f rng dt).bodies key = none := by
  rw [physics_step_bodies]
  exact (hf.1 _ _ _ key).mpr (by simp [hb])

/-- step_physics preserves the invariant (for a contract-satisfying pipeline). -/
theorem stateInv_step_physics {s : GameState} (hs : StateInv s) {f : PipelineFn}
    (hf : PipelineOK f) (rng : BallRng) (dt : ℚ) :
    StateInv (s.step_physics f rng dt) := by
  constructor
  · intro P pl h
    rw [step_physics_players] at h
    obtain ⟨e, b, he, htype, hid, hpos, hb, hkind, htr, hrot⟩ := hs.mirror P pl h
    have hb2 : (s.physics.step f rng dt).bodies ("human_" ++ P) =
        some (perturbBall rng ("human_" ++ P) b) :=
      step_preserves_kinematic hf rng dt hb hkind
    have hbid : (s.physics.step f rng dt).bodies e.id =
        some (perturbBall rng ("human_" ++ P) b) := by
      rw [hid]
      exact hb2
    have hsync := syncEntity_eq_of_body (s.physics.step f rng dt) e _ hbid
    refine ⟨syncEntity (s.physics.step f rng dt) e, perturbBall rng ("human_" ++ P) b,
      ?_, ?_, ?_, ?_, ?_, ?_, ?_, ?_⟩
    · rw [step_physics_entities]
      simp [he]
    · rw [hsync]
      exact htype
    · rw [hsync]
      exact hid
    · rw [hsync, perturbBall_translation, htr]
    · rw [step_physics_physics]
      exact hb2
    · rw [perturbBall_kind]
      exact hkind
    · rw [perturbBall_translation]
      exact htr
    · rw [perturbBall_rotationEuler]
      exact hrot
  · intro P h
    rw [step_physics_players] at h
    obtain ⟨he, hb⟩ := hs.absent P h
    constructor
    · rw [step_physics_entities]
      simp [he]
    · rw [step_physics_physics]
      exact step_preserves_absent hf rng dt hb
  · intro k e2 hk htype2
    rw [step_physics_entities] at hk
    simp only [Option.map_eq_some'] at hk
    obtain ⟨e, he, hsync⟩ := hk
    have : e.entity_type = EntityType.Human := by
      rw [← syncEntity_entity_type (s.physics.step f rng dt) e, hsync]
      exact htype2
    obtain ⟨P, hkP, hPres⟩ := hs.humanOrig k e he this
    exact ⟨P, hkP, hPres⟩
  · intro k e2 hk
    rw [step_physics_entities] at hk
    simp only [Option.map_eq_some'] at hk
    obtain ⟨e, he, hsync⟩ := hk
    rw [← hsync, syncEntity_id]
    exact hs.entId k e he

/-- Every reachable state satisfies the invariant. -/
theorem reachable_inv {s : GameState} (h : Reachable s) : StateInv s := by
  induction h with
  | init u rvx rvz => exact stateInv_new u rvx rvz
  | add p _ ih => exact stateInv_add_player ih p
  | remove pid _ ih => exact stateInv_remove_player ih pid
  | updPos pid pos rot mov _ ih => exact stateInv_update_player_position ih pid pos rot mov
  | updAct pid a _ ih => exact stateInv_update_player_activity ih pid a
  | step f rng dt hf _ ih => exact stateInv_step_physics ih hf rng dt

/-- Structure extensionality for the physics world. -/
theorem physicsWorld_eq {w1 w2 : PhysicsWorld} (hg : w1.gravity = w2.gravity)
    (hd : w1.integration_dt = w2.integration_dt) (hb : w1.bodies = w2.bodies) :
    w1 = w2 := by
  cases w1
  cases w2
  cases hg
  cases hd
  cases hb
  rfl

/-- Structure extensionality for the game state. -/
theorem gameState_eq {s1 s2 : GameState} (hp : s1.players = s2.players)
    (he : s1.entities = s2.entities) (hw : s1.physics = s2.physics) : s1 = s2 := by
  cases s1
  cases s2
  cases hp
  cases he
  cases hw
  rfl

/-- With no Join in the trace, the inbound loop never learns a player id. -/
theorem noJoin_foldl_snd : ∀ (msgs : List GameMessage) (acc : GameState × Option String),
    noJoinList msgs = true → (msgs.foldl inboundStep acc).2 = acc.2 := by
  intro msgs
  induction msgs with
  | nil => intro acc _; rfl
  | cons m rest ih =>
      intro acc h
      rw [noJoinList, List.all_cons] at h
      simp only [Bool.and_eq_true] at h
      obtain ⟨h1, h2⟩ := h
      rw [List.foldl_cons]
      have hstep : (inboundStep acc m).2 = acc.2 := by
        obtain ⟨a, b⟩ := acc
        cases m <;> simp [inboundStep, GameMessage.isJoin] at h1 ⊢
      rw [ih _ h2, hstep]

/-- With no Join and only absent player ids referenced, the inbound loop is a
complete no-op on the store. -/
theorem noJoin_absent_foldl : ∀ (msgs : List GameMessage) (s : GameState),
    noJoinList msgs = true → refersOnlyAbsent s msgs = true →
    msgs.foldl inboundStep (s, none) = (s, none) := by
  intro msgs
  induction msgs with
  | nil => intro s _ _; rfl
  | cons m rest ih =>
      intro s hj ha
      rw [noJoinList, List.all_cons] at hj
      rw [refersOnlyAbsent, List.all_cons] at ha
      simp only [Bool.and_eq_true] at hj ha
      obtain ⟨hj1, hj2⟩ := hj
      obtain ⟨ha1, ha2⟩ := ha
      rw [List.foldl_cons]
      have hstep : inboundStep (s, none) m = (s, none) := by
        cases m with
        | Join p => simp [GameMessage.isJoin] at hj1
        | Move q pos rot mov =>
            have hq : s.players q = none := of_decide_eq_true ha1
            simp [inboundStep, GameState.update_player_position, hq]
        | SetActivity q a =>
            have hq : s.players q = none := of_decide_eq_true ha1
            simp [inboundStep, GameState.update_player_activity, hq]
        | Leave q => rfl
        | ActivityChanged q a => rfl
        | WorldState ps es => rfl
        | TimeSync t => rfl
      rw [hstep]
      exact ih s hj2 ha2

/-! ### Claim theorems -/

/-- Claim C1 counterexample: the claim states that step_physics leaves a Human
entity's position AND rotation equal to the values set by the most recent
update_player_position, in particular that the yaw is not altered by the
sync-back loop.  In the concrete run, the last update set the mirrored
entity's rotation to (0, 1, 0), yet after one step_physics (with a pipeline
that leaves every body untouched) the entity's rotation is (0, 0, 0): the
sync-back loop overwrote the yaw with the physics body's identity
orientation, because update_human_position pushes only the translation. -/
theorem C1_counterexample :
    (exampleState2.entities "human_p1").map Entity.rotation = some ⟨0, 1, 0⟩ ∧
    (exampleState3.entities "human_p1").map Entity.rotation = some ⟨0, 0, 0⟩ ∧
    ((⟨0, 0, 0⟩ : Rotation) ≠ ⟨0, 1, 0⟩) := by
  decide

/-- Claim C1 amended: for every present player, step_physics (through a
contract-satisfying pipeline) leaves the mirrored Human entity's position
equal to the value set by the most recent update (the kinematic body is not
simulated), but overwrites the entity's rotation with the physics body's
orientation, which is always the identity — so the mirrored yaw is reset to
zero rather than preserved. -/
theorem C1_amended : ∀ (s : GameState) (P : String) (pl : Player)
    (f : PipelineFn) (rng : BallRng) (dt : ℚ),
    Reachable s → PipelineOK f → s.players P = some pl →
    ∃ e', (s.step_physics f rng dt).entities ("human_" ++ P) = some e' ∧
      e'.entity_type = EntityType.Human ∧
      e'.position = pl.position ∧
      e'.rotation = ⟨0, 0, 0⟩ := by
  intro s P pl f rng dt hreach hf hpl
  have inv := reachable_inv hreach
  obtain ⟨e, b, he, htype, hid, hpos, hb, hkind, htr, hrot⟩ := inv.mirror P pl hpl
  have hb2 : (s.physics.step f rng dt).bodies ("human_" ++ P) =
      some (perturbBall rng ("human_" ++ P) b) :=
    step_preserves_kinematic hf rng dt hb hkind
  have hbid : (s.physics.step f rng dt).bodies e.id =
      some (perturbBall rng ("human_" ++ P) b) := by
    rw [hid]
    exact hb2
  have hsync := syncEntity_eq_of_body (s.physics.step f rng dt) e _ hbid
  refine ⟨syncEntity (s.physics.step f rng dt) e, ?_, ?_, ?_, ?_⟩
  · rw [step_physics_entities]
    simp [he]
  · rw [hsync]
    exact htype
  · rw [hsync, perturbBall_translation, htr]
  · rw [hsync, perturbBall_rotationEuler, hrot]

/-- Claim C1 amended, witness at the concrete example run. -/
theorem C1_amended_witness :
    ∃ e', (exampleState2.step_physics idPipeline zeroRng (1 / 60)).entities
        ("human_" ++ "p1") = some e' ∧
      e'.entity_type = EntityType.Human ∧
      e'.position = examplePlayerMoved.position ∧
      e'.rotation = ⟨0, 0, 0⟩ :=
  C1_amended exampleState2 "p1" examplePlayerMoved idPipeline zeroRng (1 / 60)
    (Reachable.updPos "p1" ⟨100, 0, 200⟩ 1 true
      (Reachable.add examplePlayer (Reachable.init "u0" 0 0)))
    idPipeline_ok (by decide)

/-- Claim C2: in every reachable state, every present player id P has exactly
one mirrored entity at key "human_" ++ P, of kind Human and with that id; and
conversely every stored entity of kind Human sits at a key "human_" ++ P
equal to its id, for a present player P. -/
theorem C2_player_entity_bijection : ∀ s : GameState, Reachable s →
    (∀ P, (s.players P).isSome = true →
      ∃ e, s.entities ("human_" ++ P) = some e ∧
        e.entity_type = EntityType.Human ∧ e.id = "human_" ++ P) ∧
    (∀ k e, s.entities k = some e → e.entity_type = EntityType.Human →
      ∃ P, e.id = "human_" ++ P ∧ k = "human_" ++ P ∧
        (s.players P).isSome = true) := by
  intro s hreach
  have inv := reachable_inv hreach
  constructor
  · intro P hP
    obtain ⟨pl, hpl⟩ := Option.isSome_iff_exists.mp hP
    obtain ⟨e, b, he, htype, hid, _, _, _, _, _⟩ := inv.mirror P pl hpl
    exact ⟨e, he, htype, hid⟩
  · intro k e hk htype
    obtain ⟨P, hkP, hPres⟩ := inv.humanOrig k e hk htype
    have hidk := inv.entId k e hk
    exact ⟨P, by rw [hidk, hkP], hkP, hPres⟩

/-- Claim C2, witness: in the one-player example state the mirror exists. -/
theorem C2_witness :
    ∃ e, exampleState1.entities ("human_" ++ "p1") = some e ∧
      e.entity_type = EntityType.Human ∧ e.id = "human_" ++ "p1" :=
  (C2_player_entity_bijection exampleState1
    (Reachable.add examplePlayer (Reachable.init "u0" 0 0))).1 "p1" (by decide)

/-- Claim C3 counterexample: the Join arm of the inbound handler DOES await
the bounded session queue while holding the World Store's write lock — the
write guard taken at the top of the arm is dropped only at the end of the
match arm, after `tx.send(world_json).await`. -/
theorem C3_counterexample : awaitsWhileLocked joinArmTrace = true := by
  decide

/-- Claim C3 amended: every store user except the Join arm follows the
discipline of releasing the lock before any queue/transport/storage await
(Move and SetActivity arms, disconnect cleanup, physics tick, broadcast tick,
persistence tick), but the Join arm holds the write lock across its awaited
send of the world snapshot into the session's bounded queue — on a full queue
that send waits for capacity (tokio mpsc send) instead of failing, stalling
every other store user, so backpressure there is not resolved by
disconnection. -/
theorem C3_amended :
    awaitsWhileLocked joinArmTrace = true ∧
    awaitsWhileLocked moveArmTrace = false ∧
    awaitsWhileLocked setActivityArmTrace = false ∧
    awaitsWhileLocked cleanupTrace = false ∧
    awaitsWhileLocked physicsTickTrace = false ∧
    awaitsWhileLocked broadcastTickTrace = false ∧
    awaitsWhileLocked persistenceTickTrace = false := by
  decide

/-- Claim C4: in any reachable state, update_player_position,
update_player_activity and remove_player on a player id absent from the store
leave the entire GameState (players, entities, physics world) unchanged, and
surface nothing (each returns the very same state). -/
theorem C4_unknown_id_noop : ∀ (s : GameState) (pid : String) (pos : Position)
    (rot : ℚ) (mov : Bool) (a : Activity),
    Reachable s → s.players pid = none →
    s.update_player_position pid pos rot mov = s ∧
    s.update_player_activity pid a = s ∧
    s.remove_player pid = s := by
  intro s pid pos rot mov a hreach hnone
  have inv := reachable_inv hreach
  obtain ⟨he, hb⟩ := inv.absent pid hnone
  refine ⟨?_, ?_, ?_⟩
  · simp [GameState.update_player_position, hnone]
  · simp [GameState.update_player_activity, hnone]
  · have hplayers : mapErase s.players pid = s.players := by
      funext j
      by_cases hj : j = pid
      · subst hj
        rw [mapErase_self, hnone]
      · rw [mapErase_ne _ hj]
    have hentities : mapErase s.entities ("human_" ++ pid) = s.entities := by
      funext j
      by_cases hj : j = "human_" ++ pid
      · subst hj
        rw [mapErase_self, he]
      · rw [mapErase_ne _ hj]
    have hbodies : mapErase s.physics.bodies ("human_" ++ pid) = s.physics.bodies := by
      funext j
      by_cases hj : j = "human_" ++ pid
      · subst hj
        rw [mapErase_self, hb]
      · rw [mapErase_ne _ hj]
    exact gameState_eq hplayers hentities (physicsWorld_eq rfl rfl hbodies)

/-- Claim C4, witness at the freshly initialized store and an unknown id. -/
theorem C4_witness :
    exampleState0.update_player_position "ghost" ⟨1, 1, 1⟩ 0 false = exampleState0 ∧
    exampleState0.update_player_activity "ghost" Activity.Idle = exampleState0 ∧
    exampleState0.remove_player "ghost" = exampleState0 :=
  C4_unknown_id_noop exampleState0 "ghost" ⟨1, 1, 1⟩ 0 false Activity.Idle
    (Reachable.init "u0" 0 0) (by decide)

/-- Claim C5: within one broadcast tick the snapshot is serialized exactly
once, and the tick delivers that single serialized payload to every
subscribed session — any two recipients of the same tick receive equal
strings. -/
theorem C5_broadcast_single_serialization : ∀ (serialize : GameMessage → Option String)
    (players : List Player) (entities : List Entity) (sessions : List String),
    (∀ payload, serialize (GameMessage.WorldState players entities) = some payload →
      broadcastTick serialize players entities sessions =
        sessions.map fun sid => (sid, payload)) ∧
    (∀ s1 p1 s2 p2,
      (s1, p1) ∈ broadcastTick serialize players entities sessions →
      (s2, p2) ∈ broadcastTick serialize players entities sessions → p1 = p2) := by
  intro serialize players entities sessions
  constructor
  · intro payload h
    rw [broadcastTick, h]
  · intro s1 p1 s2 p2 h1 h2
    cases hser : serialize (GameMessage.WorldState players entities) with
    | none =>
        rw [broadcastTick, hser] at h1
        cases h1
    | some payload =>
        rw [broadcastTick, hser] at h1 h2
        simp only [List.mem_map] at h1 h2
        obtain ⟨a1, _, he1⟩ := h1
        obtain ⟨a2, _, he2⟩ := h2
        cases he1
        cases he2
        rfl

/-- Claim C5, witness: a two-session tick with a fixed serializer. -/
theorem C5_witness :
    broadcastTick (fun _ => some "w") [] [] ["a", "b"] =
      ["a", "b"].map fun sid => (sid, "w") :=
  (C5_broadcast_single_serialization (fun _ => some "w") [] [] ["a", "b"]).1 "w" rfl

/-- Claim C6: in PhysicsWorld::step the perturbation pass runs before the
integration pipeline; every ball body whose vertical velocity lies strictly
inside (-6, 6) gets each horizontal velocity component changed by its bounded
draw times 60 (at most 1200 in magnitude when the draws respect the
gen_range(-20..20) bound) with the vertical component untouched, and every
other body is left exactly unchanged by the pass. -/
theorem C6_perturbation : ∀ (rng : BallRng) (w : PhysicsWorld) (f : PipelineFn)
    (dt : ℚ) (id : String) (b : RigidBody),
    (∀ j, |(rng j).1| ≤ 20 ∧ |(rng j).2| ≤ 20) →
    w.bodies id = some b →
    ((w.step f rng dt).bodies =
        f w.gravity w.integration_dt (fun j => (w.bodies j).map (perturbBall rng j))) ∧
    (hasPre "ball_" id = true → b.linvel.y < 6 → b.linvel.y > -6 →
      (w.bodies id).map (perturbBall rng id) =
        some { b with linvel :=
          ⟨b.linvel.x + (rng id).1 * 60, b.linvel.y, b.linvel.z + (rng id).2 * 60⟩ } ∧
      |(rng id).1 * 60| ≤ 1200 ∧ |(rng id).2 * 60| ≤ 1200) ∧
    (¬(hasPre "ball_" id = true ∧ b.linvel.y < 6 ∧ b.linvel.y > -6) →
      (w.bodies id).map (perturbBall rng id) = some b) := by
  intro rng w f dt id b hrng hb
  refine ⟨physics_step_bodies w f rng dt, ?_, ?_⟩
  · intro hball hy1 hy2
    refine ⟨?_, ?_, ?_⟩
    · rw [hb]
      simp only [Option.map_some']
      rw [perturbBall, if_pos ⟨hball, hy1, hy2⟩]
    · have h1 := (hrng id).1
      calc |(rng id).1 * 60| = |(rng id).1| * 60 := by
              rw [abs_mul]
              norm_num
        _ ≤ 20 * 60 := by linarith
        _ = 1200 := by norm_num
    · have h2 := (hrng id).2
      calc |(rng id).2 * 60| = |(rng id).2| * 60 := by
              rw [abs_mul]
              norm_num
        _ ≤ 20 * 60 := by linarith
        _ = 1200 := by norm_num
  · intro hnot
    rw [hb]
    simp only [Option.map_some']
    rw [perturbBall, if_neg hnot]

/-- Claim C6, witness: a ball at its trough with boundary draws. -/
theorem C6_witness :
    (exampleBallWorld.bodies "ball_b").map (perturbBall exampleRng "ball_b") =
      some { exampleBallBody with linvel :=
        ⟨exampleBallBody.linvel.x + (exampleRng "ball_b").1 * 60,
         exampleBallBody.linvel.y,
         exampleBallBody.linvel.z + (exampleRng "ball_b").2 * 60⟩ } ∧
    |(exampleRng "ball_b").1 * 60| ≤ 1200 ∧ |(exampleRng "ball_b").2 * 60| ≤ 1200 :=
  (C6_perturbation exampleRng exampleBallWorld idPipeline (1 / 60) "ball_b"
    exampleBallBody (fun j => by constructor <;> norm_num [exampleRng])
    (by norm_num [exampleBallWorld, exampleBallBody, PhysicsWorld.create_bouncy_ball,
      PhysicsWorld.new, mapInsert])).2.1
    (by decide) (by norm_num [exampleBallBody]) (by norm_num [exampleBallBody])

/-- Claim C7: the result of PhysicsWorld::step (and of GameState::step_physics)
is independent of the dt argument — the argument is received and discarded,
the pipeline always runs on the fixed integration delta stored in the world. -/
theorem C7_step_dt_independent : ∀ (f : PipelineFn) (rng : BallRng)
    (w : PhysicsWorld) (s : GameState) (dt1 dt2 : ℚ),
    w.step f rng dt1 = w.step f rng dt2 ∧
    s.step_physics f rng dt1 = s.step_physics f rng dt2 :=
  fun _ _ _ _ _ _ => ⟨rfl, rfl⟩

/-- Claim C8 counterexample: a session that never sent Join but did send a
Move naming a player joined by another session mutates the store, so after
its transport closes the players map is NOT exactly as it was when the
session connected (the cleanup itself removed nothing; the pre-Join Move did
the mutating). -/
theorem C8_counterexample :
    noJoinList [GameMessage.Move "p1" ⟨9, 8, 7⟩ 2 true] = true ∧
    (sessionRun exampleState1 [GameMessage.Move "p1" ⟨9, 8, 7⟩ 2 true]).players "p1" ≠
      exampleState1.players "p1" := by
  decide

/-- Claim C8 amended: if the transport closes before any Join, the cleanup
performs no World Store mutation (no player id was recorded, so the run ends
with the state produced by the inbound messages alone); the store is exactly
as it was at connect provided the session's pre-Join Move/SetActivity
messages referenced only absent player ids — such messages naming a present
player mutate that player even without a Join. -/
theorem C8_amended : ∀ (s : GameState) (msgs : List GameMessage),
    noJoinList msgs = true →
    (runInbound s msgs).2 = none ∧
    sessionRun s msgs = (runInbound s msgs).1 ∧
    (refersOnlyAbsent s msgs = true → sessionRun s msgs = s) := by
  intro s msgs h
  have h2 : (runInbound s msgs).2 = none := noJoin_foldl_snd msgs (s, none) h
  refine ⟨h2, ?_, ?_⟩
  · rw [sessionRun]
    cases ht : runInbound s msgs with
    | mk a b =>
        rw [ht] at h2
        have hb : b = none := h2
        subst hb
        rfl
  · intro ha
    rw [sessionRun, runInbound, noJoin_absent_foldl msgs s h ha]
    rfl

/-- Claim C8 amended, witness: a pre-Join Move naming an absent id leaves the
fresh store untouched and the cleanup removes nothing. -/
theorem C8_amended_witness :
    (runInbound exampleState0 exampleGhostMsgs).2 = none ∧
    sessionRun exampleState0 exampleGhostMsgs =
      (runInbound exampleState0 exampleGhostMsgs).1 ∧
    sessionRun exampleState0 exampleGhostMsgs = exampleState0 :=
  let h := C8_amended exampleState0 exampleGhostMsgs (by decide)
  ⟨h.1, h.2.1, h.2.2 (by decide)⟩

/-- Claim C9: add_entity places every Ball physics body at the fixed height
y = 500 regardless of the entity's stored position.y (only x and z are
forwarded to create_bouncy_ball), so body and stored entity can disagree in
the vertical coordinate right after add_entity, until the next step_physics
overwrites the entity from physics. -/
theorem C9_ball_fixed_height : ∀ (s : GameState) (e : Entity) (rvx rvz : ℚ),
    e.entity_type = EntityType.Ball →
    ((s.add_entity rvx rvz e).physics.bodies e.id =
        some { kind := BodyKind.dynamic
               translation := ⟨e.position.x, 500, e.position.z⟩
               rotationEuler := ⟨0, 0, 0⟩
               linvel := ⟨rvx * 60, 0, rvz * 60⟩ }) ∧
    ((s.add_entity rvx rvz e).entities e.id = some e) ∧
    (e.position.y ≠ 500 →
      ((s.add_entity rvx rvz e).physics.bodies e.id).map (fun b => b.translation.y) ≠
        ((s.add_entity rvx rvz e).entities e.id).map (fun x => x.position.y)) ∧
    (∀ (f : PipelineFn) (rng : BallRng) (dt : ℚ) (b' : RigidBody),
      ((s.add_entity rvx rvz e).step_physics f rng dt).physics.bodies e.id = some b' →
      ((s.add_entity rvx rvz e).step_physics f rng dt).entities e.id =
        some { e with
          position := ⟨b'.translation.x, b'.translation.y, b'.translation.z⟩
          rotation := ⟨b'.rotationEuler.x, b'.rotationEuler.y, b'.rotationEuler.z⟩ }) := by
  intro s e rvx rvz htype
  obtain ⟨eid, etype, epos, erot⟩ := e
  cases htype
  have h1 : (s.add_entity rvx rvz ⟨eid, EntityType.Ball, epos, erot⟩).physics.bodies eid =
      some { kind := BodyKind.dynamic
             translation := ⟨epos.x, 500, epos.z⟩
             rotationEuler := ⟨0, 0, 0⟩
             linvel := ⟨rvx * 60, 0, rvz * 60⟩ } := by
    simp [GameState.add_entity, PhysicsWorld.create_bouncy_ball, mapInsert_self]
  have h2 : (s.add_entity rvx rvz ⟨eid, EntityType.Ball, epos, erot⟩).entities eid =
      some ⟨eid, EntityType.Ball, epos, erot⟩ := by
    simp [GameState.add_entity, mapInsert_self]
  refine ⟨h1, h2, ?_, ?_⟩
  · intro hy
    rw [h1, h2]
    simp only [Option.map_some', ne_eq, Option.some.injEq]
    exact fun hc => hy hc.symm
  · intro f rng dt b' hb'
    have hsync := syncEntity_eq_of_body
      ((s.add_entity rvx rvz ⟨eid, EntityType.Ball, epos, erot⟩).physics.step f rng dt)
      ⟨eid, EntityType.Ball, epos, erot⟩ b' hb'
    rw [step_physics_entities]
    show ((s.add_entity rvx rvz ⟨eid, EntityType.Ball, epos, erot⟩).entities eid).map
        (syncEntity ((s.add_entity rvx rvz ⟨eid, EntityType.Ball, epos, erot⟩).physics.step
          f rng dt)) = _
    rw [h2, Option.map_some', hsync]

/-- Claim C9, witness: a Ball entity stored at height 123 gets a physics body
at height 500. -/
theorem C9_witness :
    (exampleState0.add_entity 5 7 exampleBallEntity).physics.bodies
        exampleBallEntity.id =
      some { kind := BodyKind.dynamic
             translation := ⟨exampleBallEntity.position.x, 500, exampleBallEntity.position.z⟩
             rotationEuler := ⟨0, 0, 0⟩
             linvel := ⟨5 * 60, 0, 7 * 60⟩ } ∧
    (exampleState0.add_entity 5 7 exampleBallEntity).entities exampleBallEntity.id =
      some exampleBallEntity ∧
    ((exampleState0.add_entity 5 7 exampleBallEntity).physics.bodies
        exampleBallEntity.id).map (fun b => b.translation.y) ≠
      ((exampleState0.add_entity 5 7 exampleBallEntity).entities
        exampleBallEntity.id).map (fun x => x.position.y) :=
  let h := C9_ball_fixed_height exampleState0 exampleBallEntity 5 7 rfl
  ⟨h.1, h.2.1, h.2.2.1 (by decide)⟩

/-- Claim C10: save_all_entities sends every entity through entityToData,
whose coordinate fields are all `f32 as i32` casts — truncation toward zero
(floor for nonnegative values, ceiling for negative ones, inside the i32
range), so at most one unit of sub-integer (for rotations: sub-radian)
precision survives in magnitude and none in the fraction. -/
theorem C10_truncation : ∀ (es : List Entity) (e : Entity), e ∈ es →
    (entityToData e ∈ save_all_entities es ∧
     (entityToData e).position_x = ratAsI32 e.position.x ∧
     (entityToData e).position_y = ratAsI32 e.position.y ∧
     (entityToData e).position_z = ratAsI32 e.position.z ∧
     (entityToData e).rotation_x = ratAsI32 e.rotation.x ∧
     (entityToData e).rotation_y = ratAsI32 e.rotation.y ∧
     (entityToData e).rotation_z = ratAsI32 e.rotation.z) ∧
    (∀ q : ℚ, -(2 ^ 31) ≤ q → q ≤ 2 ^ 31 - 1 →
      (0 ≤ q → ratAsI32 q = ⌊q⌋) ∧
      (q < 0 → ratAsI32 q = ⌈q⌉) ∧
      |(ratAsI32 q : ℚ) - q| < 1 ∧
      |(ratAsI32 q : ℚ)| ≤ |q|) := by
  intro es e he
  constructor
  · exact ⟨List.mem_map_of_mem entityToData he, rfl, rfl, rfl, rfl, rfl, rfl⟩
  · intro q hlo hhi
    rcases le_or_lt 0 q with h0 | h0
    · have hf1 : (⌊q⌋ : ℚ) ≤ q := Int.floor_le q
      have hf2 : q < ⌊q⌋ + 1 := Int.lt_floor_add_one q
      have hfl : 0 ≤ ⌊q⌋ := Int.floor_nonneg.mpr h0
      have hfu : ⌊q⌋ ≤ 2 ^ 31 - 1 := by exact_mod_cast le_trans hf1 hhi
      have hval : ratAsI32 q = ⌊q⌋ := by
        show max (-(2 ^ 31)) (min (2 ^ 31 - 1) (if 0 ≤ q then ⌊q⌋ else ⌈q⌉)) = ⌊q⌋
        rw [if_pos h0, min_eq_right hfu, max_eq_right (le_trans (by norm_num) hfl)]
      refine ⟨fun _ => hval, fun hq => absurd h0 (not_le.mpr hq), ?_, ?_⟩
      · rw [hval, abs_lt]
        constructor <;> linarith
      · have hcast : (0 : ℚ) ≤ (⌊q⌋ : ℚ) := by exact_mod_cast hfl
        rw [hval, abs_of_nonneg hcast, abs_of_nonneg h0]
        exact hf1
    · have hc1 : q ≤ ⌈q⌉ := Int.le_ceil q
      have hc2 : (⌈q⌉ : ℚ) < q + 1 := Int.ceil_lt_add_one q
      have hcu : ⌈q⌉ ≤ 0 := Int.ceil_le.mpr (by exact_mod_cast le_of_lt h0)
      have hcl : -(2 ^ 31) ≤ ⌈q⌉ := by exact_mod_cast le_trans hlo hc1
      have hval : ratAsI32 q = ⌈q⌉ := by
        show max (-(2 ^ 31)) (min (2 ^ 31 - 1) (if 0 ≤ q then ⌊q⌋ else ⌈q⌉)) = ⌈q⌉
        rw [if_neg (not_le.mpr h0), min_eq_right (le_trans hcu (by norm_num)),
          max_eq_right hcl]
      refine ⟨fun hq => absurd hq (not_le.mpr h0), fun _ => hval, ?_, ?_⟩
      · rw [hval, abs_lt]
        constructor <;> linarith
      · have hcast : (⌈q⌉ : ℚ) ≤ 0 := by exact_mod_cast hcu
        rw [hval, abs_of_nonpos hcast, abs_of_neg h0]
        linarith

/-- Claim C10, witness: a rotation of 1.57 radians is persisted with its
sub-radian fraction discarded but within one radian of the true value. -/
theorem C10_witness :
    entityToData exampleEntityDb ∈ save_all_entities [exampleEntityDb] ∧
    |(ratAsI32 ((157 : ℚ) / 100) : ℚ) - 157 / 100| < 1 :=
  let h := C10_truncation [exampleEntityDb] exampleEntityDb (List.mem_singleton.mpr rfl)
  ⟨h.1.1, (h.2 ((157 : ℚ) / 100) (by norm_num) (by norm_num)).2.2.1⟩

end Timehelm
